import Mathlib

/-!
Verification development for `ClassBacktesting.py` (RedFoxQT).

The repository implements a portfolio backtesting simulator:
a constructor (`__init__`) that validates the shapes of the price data,
the order matrix and the order timeline, and a method `get_returns`
that walks the aligned price table date by date, applies pending order
events (sell pass, buy-weight check, buy pass) and returns three output
tables (returns, number of shares, value of shares).

Embedding conventions:
 * numeric values (numpy float64 in the source) are modelled as `ℚ`;
   every concrete value appearing in the spec's scenarios is exactly
   representable, so rational arithmetic agrees with the source there;
 * dates (`price_date` values / `na_OrderTime` entries) are modelled as `ℕ`;
 * a raised Python exception is modelled as `Except.error` with a
   constructor naming the error class of the spec's taxonomy;
 * `numpy.round` is round-half-to-even (`npRound`), `numpy.floor` is `Int.floor`;
 * CPython's `is` comparison on `len(...)` results (used by the source's
   shape checks) is modelled by `pyIsInt`, including the small-integer cache;
 * numpy aliasing is modelled where it is observable: `vd_StartCash` is a
   live view of the cash cell mutated by each buy, so the buy pass runs on
   the running cash balance;
 * `get_returns` is the simulation core on the aligned price table;
   `get_returns_full` adds step 1, including the failing single-table
   projection of source line 92.
-/

set_option maxRecDepth 10000

/-- Errors of the source's taxonomy: `TypeMismatch` and `ShapeMismatch` are the
`TypeError`/`ValueError` raised by `__init__` and `get_returns` argument checks,
`InsufficientShares` and `InvalidOrderWeights` the two mid-simulation
`ValueError`s; `IndexOutOfBounds` is a Python `IndexError` from indexing an
empty array and `KeyNotFound` the `KeyError` raised by the tuple column lookup
of source line 92 (neither is part of the spec's taxonomy). -/
inductive BTError where
  | TypeMismatch
  | ShapeMismatch
  | IndexOutOfBounds
  | InsufficientShares
  | InvalidOrderWeights
  | KeyNotFound
deriving DecidableEq

instance {ε α : Type} [DecidableEq ε] [DecidableEq α] : DecidableEq (Except ε α) := fun a b =>
  match a, b with
  | .ok x, .ok y =>
    if h : x = y then .isTrue (by rw [h]) else
      .isFalse (by intro hc; apply h; injection hc)
  | .error x, .error y =>
    if h : x = y then .isTrue (by rw [h]) else
      .isFalse (by intro hc; apply h; injection hc)
  | .ok _, .error _ => .isFalse (by intro hc; exact Except.noConfusion hc)
  | .error _, .ok _ => .isFalse (by intro hc; exact Except.noConfusion hc)

/-- CPython identity (`is`) on two freshly produced non-negative machine
integers, such as the results of two `len(...)` calls on distinct objects:
the two objects are identical exactly when the values are equal and lie in
CPython's small-integer cache (interval `[-5, 256]`; lengths are
non-negative, so only the upper bound matters). The source compares array
lengths with `is` / `is not` instead of `==`. -/
def pyIsInt (a b : ℕ) : Bool := a == b && a ≤ 256

/-- numpy.round: round half to even (banker's rounding). -/
def npRound (x : ℚ) : ℤ :=
  if x - ⌊x⌋ < 1/2 then ⌊x⌋
  else if 1/2 < x - ⌊x⌋ then ⌊x⌋ + 1
  else if ⌊x⌋ % 2 = 0 then ⌊x⌋ else ⌊x⌋ + 1

/-- `ClassBacktesting.__init__` (lines 40-62 of the source), for inputs that
already have the checked Python types (so the three `TypeMismatch` branches do
not fire).  `isDF` says whether `l_Data` was a single DataFrame rather than a
list; `dataLen` is `len(l_Data)` (number of tables for a list, number of rows
for a single DataFrame).  Line 49 compares the order/timeline lengths with
`is not` (modelled by `pyIsInt`); line 53 evaluates `len(na_Order[0])`, which
raises an `IndexError` when the order matrix is empty. -/
def bt_init (isDF : Bool) (dataLen : ℕ) (na_Order : List (List ℚ))
    (na_OrderTime : List ℕ) : Except BTError Unit :=
  if pyIsInt na_Order.length na_OrderTime.length then
    match na_Order with
    | [] => .error .IndexOutOfBounds
    | row0 :: _ =>
      if (isDF && pyIsInt row0.length 1) || pyIsInt dataLen row0.length then .ok ()
      else .error .ShapeMismatch
  else .error .ShapeMismatch

/-- The sell pass of one order event (source lines 111-118): for each asset
whose order value is negative, fail with `InsufficientShares` when the current
share count is already negative, otherwise add `npRound (shares * order)` to
the share count and `-delta * price` to cash.  Arguments: current share row,
price row for this date, order row, current cash.  Returns the updated share
row and cash.  Indexing past the end of the share/price rows (a width
mismatch) is a Python `IndexError`. -/
def sellPass : List ℚ → List ℚ → List ℚ → ℚ → Except BTError (List ℚ × ℚ)
  | sh, _, [], cash => .ok (sh, cash)
  | s :: ss, p :: ps, v :: vs, cash =>
    if v < 0 ∧ s < 0 then .error .InsufficientShares
    else if v < 0 then
      Except.map (fun r => ((s + (npRound (s * v) : ℚ)) :: r.1, r.2))
        (sellPass ss ps vs (cash + -(npRound (s * v) : ℚ) * p))
    else
      Except.map (fun r => (s :: r.1, r.2)) (sellPass ss ps vs cash)
  | _, _, _ :: _, _ => .error .IndexOutOfBounds

/-- The buy pass of one order event (source lines 124-129).
`vd_StartCash = na_ValueCash[vi_DataInd]` (line 124) is integer basic indexing
on the 2-D `(n, 1)` cash array, so it is a live numpy *view* of the cash cell,
and line 129 mutates that cell in place: both the guard `vd_StartCash > 0` and
the buy size `floor(vd_StartCash * order / price)` therefore read the running
cash balance, decreased by every earlier buy of the same event.  Accordingly
this pass carries one `cash` accumulator that is both sized from and
decremented by each purchase. -/
def buyPass : List ℚ → List ℚ → List ℚ → ℚ → Except BTError (List ℚ × ℚ)
  | sh, _, [], cash => .ok (sh, cash)
  | s :: ss, p :: ps, v :: vs, cash =>
    if 0 < cash ∧ 0 < v then
      Except.map (fun r => ((s + (⌊cash * v / p⌋ : ℚ)) :: r.1, r.2))
        (buyPass ss ps vs (cash + -(⌊cash * v / p⌋ : ℚ) * p))
    else
      Except.map (fun r => (s :: r.1, r.2)) (buyPass ss ps vs cash)
  | _, _, _ :: _, _ => .error .IndexOutOfBounds

/-- Application of one order event (source lines 111-129): sell pass, then the
buy-fraction check `vd_CheckBuy = sum([x for x in row if x > 0])`, raising
`InvalidOrderWeights` when `vd_CheckBuy > 0` and `vd_CheckBuy ≠ 1`, then the
buy pass started from the post-sell cash (`vd_StartCash` aliases the live cash
cell, so the pass runs on the running balance). -/
def applyOrder (shares prices orders : List ℚ) (cash : ℚ) : Except BTError (List ℚ × ℚ) :=
  match sellPass shares prices orders cash with
  | .error e => .error e
  | .ok (s1, c1) =>
    if 0 < (orders.filter fun x => decide (0 < x)).sum ∧
        (orders.filter fun x => decide (0 < x)).sum ≠ 1 then
      .error .InvalidOrderWeights
    else buyPass s1 prices orders c1

/-- One row of the simulator's running state, per date: the date, the
per-asset share counts (`na_NrOfShares[i, :]`), the cash balance
(`na_ValueCash[i]`) and the per-asset share values (`na_ValueShares[i, :]`). -/
structure DayRow where
  date : ℕ
  shares : List ℚ
  cash : ℚ
  valueShares : List ℚ
deriving DecidableEq

/-- The main date loop of `get_returns` (source lines 101-135).  The source
preallocates arrays and mutates row `vi_DataInd`, reading only row
`vi_DataInd - 1` (the copy-forward of lines 104-107); this is modelled by
passing the previous row's share counts and cash through the recursion.  An
order event applies exactly when `vi_TimeInd` is in bounds and the date equals
`na_OrderTime[vi_TimeInd]` (line 110); afterwards the share values of the date
are recomputed as `prices * shares` (line 135). -/
def runLoop (na_Order : List (List ℚ)) (na_OrderTime : List ℕ) :
    List (ℕ × List ℚ) → List ℚ → ℚ → ℕ → Except BTError (List DayRow)
  | [], _, _, _ => .ok []
  | (d, prices) :: rest, shares, cash, timeInd =>
    if na_OrderTime[timeInd]? = some d then
      match na_Order[timeInd]? with
      | none => .error .IndexOutOfBounds
      | some orderRow =>
        match applyOrder shares prices orderRow cash with
        | .error e => .error e
        | .ok (s1, c1) =>
          Except.map
            (fun rows => ⟨d, s1, c1, List.zipWith (fun p s => p * s) prices s1⟩ :: rows)
            (runLoop na_Order na_OrderTime rest s1 c1 (timeInd + 1))
    else
      Except.map
        (fun rows => ⟨d, shares, cash, List.zipWith (fun p s => p * s) prices shares⟩ :: rows)
        (runLoop na_Order na_OrderTime rest shares cash timeInd)

/-- One row of the first output table `df_Returns` (source lines 138-141):
date, total return (`sum(valueShares) + cash`), the cash part (column
`valuecash`) and the shares part (column `value_shares`). -/
structure ReturnsRow where
  price_date : ℕ
  returns : ℚ
  valuecash : ℚ
  value_shares : ℚ
deriving DecidableEq

/-- The simulation core of `ClassBacktesting.get_returns` (source lines
95-152), after step 1: `df_Data` is the aligned price table, one
`(date, price row)` entry per trading date, whose length the source uses to
size its arrays; producing `df_Data` from the stored price data (the external
multi-table merge, and the single-table projection of line 92 that in fact
raises) is modelled separately in `get_returns_full`.
`vi_Notional` is the starting cash (the source's numeric type check passes by
typing).  The width of the share arrays is `len(na_Order[0, :])` (line 97),
an `IndexError` when the order matrix is empty.  Returns the three tables
`(df_Returns, df_NrOfShares, df_ValueShares)`, each one row per date. -/
def get_returns (df_Data : List (ℕ × List ℚ)) (na_Order : List (List ℚ))
    (na_OrderTime : List ℕ) (vi_Notional : ℚ) :
    Except BTError (List ReturnsRow × List (ℕ × List ℚ) × List (ℕ × List ℚ)) :=
  match na_Order with
  | [] => .error .IndexOutOfBounds
  | row0 :: _ =>
    Except.map (fun rows =>
      (rows.map fun r =>
        ⟨r.date, r.valueShares.sum + r.cash, r.cash, r.valueShares.sum⟩,
       rows.map fun r => (r.date, r.shares),
       rows.map fun r => (r.date, r.valueShares)))
      (runLoop na_Order na_OrderTime df_Data (List.replicate row0.length 0) vi_Notional 0)

/-- `get_returns` with step 1 included (source lines 88-92): with more than
one stored price table, the aligned table is produced by the external
`df_manipulation.merge_dfs` collaborator (passed as the `merge` argument; its
join semantics are out of core scope).  Otherwise line 92 evaluates
`self.l_Data[0]['price_date', vs_PriceType]`: indexing a DataFrame with a
tuple looks the tuple up as a single column label, which raises a `KeyError`
on the flat-columned price tables before the simulation loop can run (and an
`IndexError` when the stored list is empty).  Each stored table is a list of
`(date, price row)` entries. -/
def get_returns_full (merge : List (List (ℕ × List ℚ)) → List (ℕ × List ℚ))
    (l_Data : List (List (ℕ × List ℚ))) (na_Order : List (List ℚ))
    (na_OrderTime : List ℕ) (vi_Notional : ℚ) :
    Except BTError (List ReturnsRow × List (ℕ × List ℚ) × List (ℕ × List ℚ)) :=
  if 1 < l_Data.length then
    get_returns (merge l_Data) na_Order na_OrderTime vi_Notional
  else
    match l_Data with
    | [] => .error .IndexOutOfBounds
    | _ :: _ => .error .KeyNotFound

/-! ### Helper lemmas -/

/-- `npRound` never rounds down by more than one half. -/
lemma npRound_lb (x : ℚ) : x - 1/2 ≤ (npRound x : ℚ) := by
  have h1 : (⌊x⌋ : ℚ) ≤ x := Int.floor_le x
  have h2 : x < ⌊x⌋ + 1 := Int.lt_floor_add_one x
  unfold npRound
  split_ifs with hA hB hC
  · linarith
  · push_cast; linarith
  · linarith
  · push_cast; linarith

/-- `npRound` stays at or above any integer lower bound of its argument. -/
lemma npRound_ge_int (a : ℤ) (x : ℚ) (h : (a : ℚ) ≤ x) : a ≤ npRound x := by
  have hb := npRound_lb x
  have h2 : ((a - 1 : ℤ) : ℚ) < (npRound x : ℚ) := by push_cast; linarith
  have h3 : a - 1 < npRound x := by exact_mod_cast h2
  omega

/-- The sum of the positive entries of a list is non-negative. -/
lemma filter_pos_sum_nonneg (l : List ℚ) : 0 ≤ (l.filter fun x => decide (0 < x)).sum := by
  induction l with
  | nil => simp
  | cons a t ih =>
    by_cases h : 0 < a
    · rw [List.filter_cons, if_pos (by simpa using h)]
      simp only [List.sum_cons]
      linarith
    · rw [List.filter_cons, if_neg (by simpa using h)]
      exact ih

/-- The buy pass succeeds and keeps cash non-negative whenever every positive
order value is at most 1, every price is positive, and the incoming cash is
non-negative: each buy spends `floor(cash * v / p) * p ≤ cash * v ≤ cash` out
of the cash available at its turn. -/
lemma buyPass_nonneg_aux :
    ∀ (orders shares prices : List ℚ) (cash : ℚ),
      (∀ v ∈ orders, 0 < v → v ≤ 1) →
      (∀ p ∈ prices, 0 < p) →
      0 ≤ cash →
      orders.length = shares.length → orders.length = prices.length →
      ∃ s' c', buyPass shares prices orders cash = .ok (s', c') ∧ 0 ≤ c' := by
  intro orders
  induction orders with
  | nil =>
    intro shares prices cash _ _ hc h1 h2
    cases shares with
    | cons a b => simp at h1
    | nil => exact ⟨[], cash, by simp [buyPass], hc⟩
  | cons v vs ih =>
    intro shares prices cash hv1 hp hc h1 h2
    cases shares with
    | nil => simp at h1
    | cons s ss =>
      cases prices with
      | nil => simp at h2
      | cons p ps =>
        have h1' : vs.length = ss.length := by simpa using h1
        have h2' : vs.length = ps.length := by simpa using h2
        have hp0 : 0 < p := hp p (by simp)
        have hps : ∀ q ∈ ps, 0 < q := fun q hq => hp q (by simp [hq])
        have hvs : ∀ w ∈ vs, 0 < w → w ≤ 1 := fun w hw hw0 => hv1 w (by simp [hw]) hw0
        by_cases hb : 0 < cash ∧ 0 < v
        · have hvle : v ≤ 1 := hv1 v (by simp) hb.2
          have hflr : (⌊cash * v / p⌋ : ℚ) * p ≤ cash * v := by
            have h := mul_le_mul_of_nonneg_right (Int.floor_le (cash * v / p)) hp0.le
            rwa [div_mul_cancel₀ _ (ne_of_gt hp0)] at h
          have hcash' : 0 ≤ cash + -(⌊cash * v / p⌋ : ℚ) * p := by
            have hle : cash * v ≤ cash * 1 := mul_le_mul_of_nonneg_left hvle hc
            rw [mul_one] at hle
            linarith
          obtain ⟨s', c', hok, hc'⟩ := ih ss ps _ hvs hps hcash' h1' h2'
          refine ⟨(s + (⌊cash * v / p⌋ : ℚ)) :: s', c', ?_, hc'⟩
          simp only [buyPass]
          rw [if_pos hb, hok]
          simp [Except.map]
        · obtain ⟨s', c', hok, hc'⟩ := ih ss ps cash hvs hps hc h1' h2'
          refine ⟨s :: s', c', ?_, hc'⟩
          simp only [buyPass]
          rw [if_neg hb, hok]
          simp [Except.map]

/-- The buy pass only moves value from cash into shares: on success, the final
cash equals the incoming cash minus the cost of all share increments. -/
lemma buyPass_cash_account :
    ∀ (orders shares prices : List ℚ) (c0 : ℚ) (s' : List ℚ) (c' : ℚ),
      orders.length = shares.length → orders.length = prices.length →
      buyPass shares prices orders c0 = .ok (s', c') →
      c' = c0 - (List.zipWith (fun d q => d * q)
        (List.zipWith (fun a b => a - b) s' shares) prices).sum := by
  intro orders
  induction orders with
  | nil =>
    intro shares prices c0 s' c' h1 h2 h
    cases shares with
    | cons a b => simp at h1
    | nil =>
      simp only [buyPass, Except.ok.injEq, Prod.mk.injEq] at h
      obtain ⟨hs, hc⟩ := h
      subst hs
      subst hc
      simp
  | cons v vs ih =>
    intro shares prices c0 s' c' h1 h2 h
    cases shares with
    | nil => simp at h1
    | cons s ss =>
      cases prices with
      | nil => simp at h2
      | cons p ps =>
        have h1' : vs.length = ss.length := by simpa using h1
        have h2' : vs.length = ps.length := by simpa using h2
        by_cases hb : 0 < c0 ∧ 0 < v
        · simp only [buyPass] at h
          rw [if_pos hb] at h
          cases hr : buyPass ss ps vs (c0 + -(⌊c0 * v / p⌋ : ℚ) * p) with
          | error e => simp only [hr, Except.map] at h; exact Except.noConfusion h
          | ok pr =>
            obtain ⟨s2, c2⟩ := pr
            simp only [hr, Except.map, Except.ok.injEq, Prod.mk.injEq] at h
            obtain ⟨hs, hc⟩ := h
            have ht := ih ss ps (c0 + -(⌊c0 * v / p⌋ : ℚ) * p) s2 c2 h1' h2' hr
            subst hs
            subst hc
            simp only [List.zipWith_cons_cons, List.sum_cons]
            rw [ht]
            ring
        · simp only [buyPass] at h
          rw [if_neg hb] at h
          cases hr : buyPass ss ps vs c0 with
          | error e => simp only [hr, Except.map] at h; exact Except.noConfusion h
          | ok pr =>
            obtain ⟨s2, c2⟩ := pr
            simp only [hr, Except.map, Except.ok.injEq, Prod.mk.injEq] at h
            obtain ⟨hs, hc⟩ := h
            have ht := ih ss ps c0 s2 c2 h1' h2' hr
            subst hs
            subst hc
            simp only [List.zipWith_cons_cons, List.sum_cons]
            rw [ht]
            ring

/-- The rows produced by a successful run of the main loop carry exactly the
dates of the aligned price table, in order. -/
lemma runLoop_dates (A : List (List ℚ)) (T : List ℕ) :
    ∀ (l : List (ℕ × List ℚ)) (sh : List ℚ) (c : ℚ) (ti : ℕ) (rows : List DayRow),
      runLoop A T l sh c ti = .ok rows →
      List.map DayRow.date rows = List.map Prod.fst l := by
  intro l
  induction l with
  | nil =>
    intro sh c ti rows h
    simp only [runLoop, Except.ok.injEq] at h
    subst h
    simp
  | cons hd tl ih =>
    obtain ⟨d, prices⟩ := hd
    intro sh c ti rows h
    simp only [runLoop] at h
    by_cases hcnd : T[ti]? = some d
    · rw [if_pos hcnd] at h
      cases hA : A[ti]? with
      | none => simp only [hA] at h; exact Except.noConfusion h
      | some row =>
        simp only [hA] at h
        cases hap : applyOrder sh prices row c with
        | error e => simp only [hap] at h; exact Except.noConfusion h
        | ok pr =>
          obtain ⟨s1, c1⟩ := pr
          simp only [hap] at h
          cases hr : runLoop A T tl s1 c1 (ti + 1) with
          | error e => simp only [hr, Except.map] at h; exact Except.noConfusion h
          | ok rows2 =>
            simp only [hr, Except.map, Except.ok.injEq] at h
            subst h
            simpa using ih s1 c1 (ti + 1) rows2 hr
    · rw [if_neg hcnd] at h
      cases hr : runLoop A T tl sh c ti with
      | error e => simp only [hr, Except.map] at h; exact Except.noConfusion h
      | ok rows2 =>
        simp only [hr, Except.map, Except.ok.injEq] at h
        subst h
        simpa using ih sh c ti rows2 hr

/-! ### Claim theorems -/

/-- C1: for every successful call to `get_returns`, each of the three returned
tables has exactly one row per date of the aligned price table, and the rows
appear in the same date order as that price table. -/
theorem C1_output_rows_per_date (df_Data : List (ℕ × List ℚ))
    (na_Order : List (List ℚ)) (na_OrderTime : List ℕ) (vi_Notional : ℚ)
    (res : List ReturnsRow × List (ℕ × List ℚ) × List (ℕ × List ℚ))
    (h : get_returns df_Data na_Order na_OrderTime vi_Notional = .ok res) :
    res.1.map ReturnsRow.price_date = df_Data.map Prod.fst ∧
    res.2.1.map Prod.fst = df_Data.map Prod.fst ∧
    res.2.2.map Prod.fst = df_Data.map Prod.fst ∧
    res.1.length = df_Data.length ∧
    res.2.1.length = df_Data.length ∧
    res.2.2.length = df_Data.length := by
  cases na_Order with
  | nil => simp only [get_returns] at h; exact Except.noConfusion h
  | cons row0 Arest =>
    simp only [get_returns] at h
    cases hr : runLoop (row0 :: Arest) na_OrderTime df_Data
        (List.replicate row0.length 0) vi_Notional 0 with
    | error e => simp only [hr, Except.map] at h; exact Except.noConfusion h
    | ok rows =>
      simp only [hr, Except.map, Except.ok.injEq] at h
      subst h
      have hd := runLoop_dates (row0 :: Arest) na_OrderTime df_Data
        (List.replicate row0.length 0) vi_Notional 0 rows hr
      have hlen : rows.length = df_Data.length := by
        have := congrArg List.length hd
        simpa using this
      refine ⟨?_, ?_, ?_, ?_, ?_, ?_⟩
      · simpa [List.map_map, Function.comp] using hd
      · simpa [List.map_map, Function.comp] using hd
      · simpa [List.map_map, Function.comp] using hd
      · simpa using hlen
      · simpa using hlen
      · simpa using hlen

/-- Witness for C1: a concrete successful call (one asset, one date, full
buy at notional 1000) on which the alignment conclusion is instantiated. -/
theorem C1_witness :
    (([⟨1, 1000, 0, 1000⟩], [(1, [100])], [(1, [1000])]) :
        List ReturnsRow × List (ℕ × List ℚ) × List (ℕ × List ℚ)).1.map
          ReturnsRow.price_date = [((1 : ℕ), [(10 : ℚ)])].map Prod.fst ∧
    (([⟨1, 1000, 0, 1000⟩], [(1, [100])], [(1, [1000])]) :
        List ReturnsRow × List (ℕ × List ℚ) × List (ℕ × List ℚ)).2.1.map
          Prod.fst = [((1 : ℕ), [(10 : ℚ)])].map Prod.fst ∧
    (([⟨1, 1000, 0, 1000⟩], [(1, [100])], [(1, [1000])]) :
        List ReturnsRow × List (ℕ × List ℚ) × List (ℕ × List ℚ)).2.2.map
          Prod.fst = [((1 : ℕ), [(10 : ℚ)])].map Prod.fst ∧
    (([⟨1, 1000, 0, 1000⟩], [(1, [100])], [(1, [1000])]) :
        List ReturnsRow × List (ℕ × List ℚ) × List (ℕ × List ℚ)).1.length =
      [((1 : ℕ), [(10 : ℚ)])].length ∧
    (([⟨1, 1000, 0, 1000⟩], [(1, [100])], [(1, [1000])]) :
        List ReturnsRow × List (ℕ × List ℚ) × List (ℕ × List ℚ)).2.1.length =
      [((1 : ℕ), [(10 : ℚ)])].length ∧
    (([⟨1, 1000, 0, 1000⟩], [(1, [100])], [(1, [1000])]) :
        List ReturnsRow × List (ℕ × List ℚ) × List (ℕ × List ℚ)).2.2.length =
      [((1 : ℕ), [(10 : ℚ)])].length :=
  C1_output_rows_per_date [(1, [10])] [[1]] [1] 1000
    ([⟨1, 1000, 0, 1000⟩], [(1, [100])], [(1, [1000])])
    (by norm_num [get_returns, runLoop, applyOrder, sellPass, buyPass, Except.map])

/-- C2 (amended): for an order event whose positive weights sum to exactly 1
and whose prices are strictly positive, the buy pass started from a
non-negative cash balance leaves a non-negative cash balance despite
floor-rounding: a buy never drives cash negative.  Each buy is sized off the
running cash balance (`vd_StartCash` is a live view of the cash cell), and
every positive weight is at most the weight sum 1, so each buy spends at most
the cash available at its turn. -/
theorem C2_buy_keeps_cash_nonneg (shares prices orders : List ℚ) (cash : ℚ)
    (hw : (orders.filter fun x => decide (0 < x)).sum = 1)
    (hp : ∀ p ∈ prices, 0 < p)
    (hc : 0 ≤ cash)
    (h1 : orders.length = shares.length) (h2 : orders.length = prices.length) :
    ∃ s' c', buyPass shares prices orders cash = .ok (s', c') ∧ 0 ≤ c' := by
  refine buyPass_nonneg_aux orders shares prices cash ?_ hp hc h1 h2
  intro v hv hv0
  have hnn : ∀ x ∈ orders.filter fun x => decide (0 < x), (0 : ℚ) ≤ x := by
    intro x hx
    have hx0 : 0 < x := by simpa using (List.mem_filter.mp hx).2
    linarith
  have hmem : v ∈ orders.filter fun x => decide (0 < x) :=
    List.mem_filter.mpr ⟨hv, by simpa using hv0⟩
  have hle := List.single_le_sum hnn v hmem
  rw [hw] at hle
  exact hle

/-- Counterexample for C2 as stated: at cash 1000, prices [10, 30] and weights
[1/2, 1/2] — positive weights summing to 1, prices strictly positive — the
code buys 50 then 8 shares; the second buy is not
`floor(1000 * (1/2) / 30) = 16`, so buys are not sized off the one pre-buy
cash snapshot the claim describes. -/
theorem C2_counterexample :
    buyPass [0, 0] [10, 30] [1/2, 1/2] 1000 = .ok ([50, 8], 260) ∧
    ((([1/2, 1/2] : List ℚ).filter fun x => decide (0 < x)).sum = 1) ∧
    (∀ q ∈ [(10 : ℚ), 30], 0 < q) ∧
    (8 : ℚ) ≠ (⌊(1000 : ℚ) * (1/2) / 30⌋ : ℚ) := by
  refine ⟨?_, ?_, ?_, ?_⟩
  · norm_num [buyPass, Except.map]
  · norm_num [List.filter_cons]
  · norm_num
  · norm_num

/-- Witness for C2: two assets bought with weights 1/2 + 1/2 from cash 1000. -/
theorem C2_witness :
    ∃ s' c', buyPass [0, 0] [10, 20] [1/2, 1/2] 1000 = .ok (s', c') ∧ 0 ≤ c' :=
  C2_buy_keeps_cash_nonneg [0, 0] [10, 20] [1/2, 1/2] 1000
    (by norm_num [List.filter_cons]) (by norm_num) (by norm_num) rfl rfl

/-- C3: a sell applied to an asset holding a non-negative integer share count,
with order value in `[-1, 0)`, leaves a non-negative share count; a sell
attempted while the share count is negative raises `InsufficientShares`. -/
theorem C3_sell_nonneg (m : ℕ) (v p cash : ℚ) (ss ps vs : List ℚ)
    (hv1 : -1 ≤ v) (hv2 : v < 0) :
    (∀ s' rest c',
        sellPass ((m : ℚ) :: ss) (p :: ps) (v :: vs) cash = .ok (s' :: rest, c') →
        0 ≤ s') ∧
    (∀ s : ℚ, s < 0 →
        sellPass (s :: ss) (p :: ps) (v :: vs) cash = .error .InsufficientShares) := by
  constructor
  · intro s' rest c' h
    have hm0 : (0 : ℚ) ≤ (m : ℚ) := Nat.cast_nonneg m
    have hnot : ¬ (v < 0 ∧ (m : ℚ) < 0) := by
      rintro ⟨_, hm⟩
      exact absurd hm (not_lt.mpr hm0)
    simp only [sellPass] at h
    rw [if_neg hnot, if_pos hv2] at h
    cases hr : sellPass ss ps vs (cash + -(npRound ((m : ℚ) * v) : ℚ) * p) with
    | error e => simp only [hr, Except.map] at h; exact Except.noConfusion h
    | ok pr =>
      simp only [hr, Except.map, Except.ok.injEq, Prod.mk.injEq, List.cons.injEq] at h
      obtain ⟨⟨hhead, _⟩, _⟩ := h
      have hlow : -(m : ℤ) ≤ npRound ((m : ℚ) * v) := by
        apply npRound_ge_int
        push_cast
        have := mul_le_mul_of_nonneg_left hv1 hm0
        linarith
      have hlow' : -(m : ℚ) ≤ (npRound ((m : ℚ) * v) : ℚ) := by exact_mod_cast hlow
      rw [← hhead]
      linarith
  · intro s hs
    have hcond : v < 0 ∧ s < 0 := ⟨hv2, hs⟩
    simp only [sellPass]
    rw [if_pos hcond]

/-- Witness for C3: selling half of 100 shares leaves 50 shares, and a sell
from a share count of −1 raises `InsufficientShares`. -/
theorem C3_witness :
    (0 : ℚ) ≤ 50 ∧
    sellPass [-1] [20] [-(1/2)] 0 = .error .InsufficientShares := by
  constructor
  · exact (C3_sell_nonneg 100 (-(1/2)) 20 0 [] [] [] (by norm_num) (by norm_num)).1
      50 [] 1000 (by norm_num [sellPass, npRound, Except.map])
  · exact (C3_sell_nonneg 100 (-(1/2)) 20 0 [] [] [] (by norm_num) (by norm_num)).2
      (-1) (by norm_num)

/-- C4: after a successful sell pass, an order event whose positive values sum
to a nonzero value other than 1 makes the simulation raise
`InvalidOrderWeights`; when the sum is exactly 1, or no value is positive, the
event proceeds past the check into the buy pass.  In particular a full run
with the single event `[0.6, 0.6]` returns the error and no output. -/
theorem C4_buy_weight_check (shares prices orders : List ℚ) (cash : ℚ)
    (s1 : List ℚ) (c1 : ℚ)
    (hsell : sellPass shares prices orders cash = .ok (s1, c1)) :
    (((orders.filter fun x => decide (0 < x)).sum ≠ 0 ∧
        (orders.filter fun x => decide (0 < x)).sum ≠ 1) →
      applyOrder shares prices orders cash = .error .InvalidOrderWeights) ∧
    (((orders.filter fun x => decide (0 < x)).sum = 1 ∨
        (orders.filter fun x => decide (0 < x)).sum = 0) →
      applyOrder shares prices orders cash = buyPass s1 prices orders c1) ∧
    get_returns [(1, [10, 10])] [[3/5, 3/5]] [1] 1000 = .error .InvalidOrderWeights := by
  refine ⟨?_, ?_, ?_⟩
  · rintro ⟨hne0, hne1⟩
    have hpos : 0 < (orders.filter fun x => decide (0 < x)).sum :=
      lt_of_le_of_ne (filter_pos_sum_nonneg orders) (Ne.symm hne0)
    simp only [applyOrder, hsell]
    rw [if_pos ⟨hpos, hne1⟩]
  · intro hcase
    have hnot : ¬ (0 < (orders.filter fun x => decide (0 < x)).sum ∧
        (orders.filter fun x => decide (0 < x)).sum ≠ 1) := by
      rcases hcase with h1 | h0
      · rintro ⟨_, hne⟩; exact hne h1
      · rintro ⟨hpos, _⟩; rw [h0] at hpos; exact lt_irrefl 0 hpos
    simp only [applyOrder, hsell]
    rw [if_neg hnot]
  · norm_num [get_returns, runLoop, applyOrder, sellPass, buyPass, Except.map]

/-- Witness for C4: the event `[3/5, 3/5]` (weights 0.6 and 0.6) on a fresh
two-asset portfolio. -/
theorem C4_witness :
    (((([3/5, 3/5] : List ℚ).filter fun x => decide (0 < x)).sum ≠ 0 ∧
        ((([3/5, 3/5] : List ℚ).filter fun x => decide (0 < x)).sum ≠ 1)) →
      applyOrder [0, 0] [10, 10] [3/5, 3/5] 1000 = .error .InvalidOrderWeights) ∧
    (((([3/5, 3/5] : List ℚ).filter fun x => decide (0 < x)).sum = 1 ∨
        ((([3/5, 3/5] : List ℚ).filter fun x => decide (0 < x)).sum = 0)) →
      applyOrder [0, 0] [10, 10] [3/5, 3/5] 1000 =
        buyPass [0, 0] [10, 10] [3/5, 3/5] 1000) ∧
    get_returns [(1, [10, 10])] [[3/5, 3/5]] [1] 1000 = .error .InvalidOrderWeights :=
  C4_buy_weight_check [0, 0] [10, 10] [3/5, 3/5] 1000 [0, 0] 1000
    (by norm_num [sellPass, Except.map])

/-- C5: the constructor's length check compares `len(na_Order)` and
`len(na_OrderTime)` with CPython `is not`, so two equal lengths of 257 (past
the small-integer cache) are reported as a `ShapeMismatch` even though the
rows and the timeline match — the check does not pass for all equal lengths,
contradicting the claim and the source's own comment. -/
theorem C5_equal_lengths_rejected :
    (List.replicate 257 ([1] : List ℚ)).length = (List.replicate 257 (0 : ℕ)).length ∧
    bt_init false 1 (List.replicate 257 ([1] : List ℚ)) (List.replicate 257 (0 : ℕ)) =
      .error .ShapeMismatch := by
  constructor
  · simp
  · norm_num [bt_init, pyIsInt]

/-- C6: a date that does not equal the next pending order-timeline entry
copies the previous share counts and cash forward unchanged and only
recomputes the per-asset share values at the new prices; the order cursor does
not advance. -/
theorem C6_copy_forward (na_Order : List (List ℚ)) (na_OrderTime : List ℕ)
    (d : ℕ) (prices shares : List ℚ) (cash : ℚ) (timeInd : ℕ)
    (rest : List (ℕ × List ℚ))
    (h : na_OrderTime[timeInd]? ≠ some d) :
    runLoop na_Order na_OrderTime ((d, prices) :: rest) shares cash timeInd =
      Except.map (fun rows =>
        ⟨d, shares, cash, List.zipWith (fun p s => p * s) prices shares⟩ :: rows)
        (runLoop na_Order na_OrderTime rest shares cash timeInd) := by
  simp only [runLoop]
  rw [if_neg h]

/-- Witness for C6: date 2 against a pending order at date 5. -/
theorem C6_witness :
    runLoop [[1]] [5] [(2, [7])] [3] 50 0 =
      Except.map (fun rows =>
        ⟨2, [3], 50, List.zipWith (fun p s => p * s) [7] [3]⟩ :: rows)
        (runLoop [[1]] [5] [] [3] 50 0) :=
  C6_copy_forward [[1]] [5] 2 [7] [3] 50 0 [] (by decide)

/-- C7 (amended): in the buy pass, each asset's purchase equals
`floor (cash * orderValue / price)` computed from the running cash balance at
that asset's turn — `vd_StartCash` (line 124) is a live numpy view of the cash
cell, decreased in place by every earlier buy of the same event (line 129) —
and the final cash balance reflects the cumulative subtraction of all
purchases. -/
theorem C7_buys_use_running_cash (s p v cash : ℚ) (ss ps vs : List ℚ)
    (hc : 0 < cash) (hv : 0 < v) :
    (buyPass (s :: ss) (p :: ps) (v :: vs) cash =
      Except.map (fun r => ((s + (⌊cash * v / p⌋ : ℚ)) :: r.1, r.2))
        (buyPass ss ps vs (cash + -(⌊cash * v / p⌋ : ℚ) * p))) ∧
    (∀ (shares prices orders : List ℚ) (c0 : ℚ) (s' : List ℚ) (c' : ℚ),
        orders.length = shares.length → orders.length = prices.length →
        buyPass shares prices orders c0 = .ok (s', c') →
        c' = c0 - (List.zipWith (fun d q => d * q)
          (List.zipWith (fun a b => a - b) s' shares) prices).sum) := by
  constructor
  · simp only [buyPass]
    rw [if_pos ⟨hc, hv⟩]
  · exact fun shares prices orders c0 s' c' h1 h2 h =>
      buyPass_cash_account orders shares prices c0 s' c' h1 h2 h

/-- Counterexample for C7 as stated: cash 1000, prices [10, 30], weights
[1/2, 1/2].  The code buys 50 shares of the first asset and then 8 of the
second — `floor(500 * (1/2) / 30)`, sized off the running balance 500 — not
the `floor(1000 * (1/2) / 30) = 16` that sizing off the pre-buy snapshot, as
the claim states, would give. -/
theorem C7_counterexample :
    buyPass [0, 0] [10, 30] [1/2, 1/2] 1000 = .ok ([50, 8], 260) ∧
    (⌊(1000 : ℚ) * (1/2) / 30⌋ : ℚ) = 16 ∧
    (8 : ℚ) ≠ 16 := by
  refine ⟨?_, ?_, ?_⟩
  · norm_num [buyPass, Except.map]
  · norm_num
  · norm_num

/-- Witness for C7: the head buy at running cash 1000, and the cash
accounting instantiated on the [50, 8] run. -/
theorem C7_witness :
    (buyPass [(0 : ℚ), 0] [10, 30] [1/2, 1/2] 1000 =
      Except.map (fun r => (((0 : ℚ) + (⌊(1000 : ℚ) * (1/2) / 10⌋ : ℚ)) :: r.1, r.2))
        (buyPass [0] [30] [1/2] (1000 + -(⌊(1000 : ℚ) * (1/2) / 10⌋ : ℚ) * 10))) ∧
    (260 : ℚ) = 1000 - (List.zipWith (fun d q => d * q)
      (List.zipWith (fun a b => a - b) [50, 8] [(0 : ℚ), 0]) [10, 30]).sum :=
  ⟨(C7_buys_use_running_cash 0 10 (1/2) 1000 [0] [30] [1/2]
      (by norm_num) (by norm_num)).1,
   (C7_buys_use_running_cash 0 10 (1/2) 1000 [0] [30] [1/2]
      (by norm_num) (by norm_num)).2
     [0, 0] [10, 30] [1/2, 1/2] 1000 [50, 8] 260 rfl rfl
     (by norm_num [buyPass, Except.map])⟩

/-- C8: a sell of an asset with non-negative share count and negative order
value applies the share delta `npRound (shares * order)` and increases cash by
`-delta * price`; in particular 100 shares with order −1/2 at price 20 sell 50
shares and add 1000 to cash. -/
theorem C8_sell_delta_and_cash (s p v : ℚ) (ss ps vs : List ℚ) (cash : ℚ)
    (hv : v < 0) (hs : 0 ≤ s) :
    (sellPass (s :: ss) (p :: ps) (v :: vs) cash =
      Except.map (fun r => ((s + (npRound (s * v) : ℚ)) :: r.1, r.2))
        (sellPass ss ps vs (cash + -(npRound (s * v) : ℚ) * p))) ∧
    sellPass [100] [20] [-(1/2)] cash = .ok ([50], cash + 1000) := by
  constructor
  · have hnot : ¬ (v < 0 ∧ s < 0) := fun hc => absurd hc.2 (not_lt.mpr hs)
    simp only [sellPass]
    rw [if_neg hnot, if_pos hv]
  · norm_num [sellPass, npRound, Except.map]

/-- Witness for C8: the head sell applied concretely. -/
theorem C8_witness :
    (sellPass [100, 0] [20, 7] [-(1/2), 0] 0 =
      Except.map (fun r => (((100 : ℚ) + (npRound ((100 : ℚ) * -(1/2)) : ℚ)) :: r.1, r.2))
        (sellPass [0] [7] [0] (0 + -(npRound ((100 : ℚ) * -(1/2)) : ℚ) * 20))) ∧
    sellPass [100] [20] [-(1/2)] 0 = .ok ([50], 0 + 1000) :=
  C8_sell_delta_and_cash 100 20 (-(1/2)) [0] [7] [0] 0 (by norm_num) (by norm_num)

/-- C9: the spec's single-asset scenario cannot run.  A single-asset call
stores exactly one price table, and every single-table call of `get_returns`
raises a `KeyError` at the line-92 projection
(`self.l_Data[0]['price_date', vs_PriceType]` looks the tuple up as one column
label), whatever the external merge collaborator would do, so the claimed
successful outcome is unreachable.  The second conjunct shows the values the
claim expects are exactly what the simulation core produces on the
`(date, price)` table line 92 was meant to build: the code diverges from the
claim only by the failing projection. -/
theorem C9_single_table_keyerror :
    (∀ merge : List (List (ℕ × List ℚ)) → List (ℕ × List ℚ),
      get_returns_full merge [[(1, [10]), (2, [12]), (3, [15])]] [[1]] [1] 1000 =
        .error .KeyNotFound) ∧
    get_returns [(1, [10]), (2, [12]), (3, [15])] [[1]] [1] 1000 =
      .ok ([⟨1, 1000, 0, 1000⟩, ⟨2, 1200, 0, 1200⟩, ⟨3, 1500, 0, 1500⟩],
        [(1, [100]), (2, [100]), (3, [100])],
        [(1, [1000]), (2, [1200]), (3, [1500])]) := by
  constructor
  · intro merge
    norm_num [get_returns_full]
  · norm_num [get_returns, runLoop, applyOrder, sellPass, buyPass, Except.map]
    simp

/-- C10: constructing with an empty order matrix and an empty order timeline
never succeeds and raises neither `TypeMismatch` nor `ShapeMismatch`: the
width check indexes the first order row and fails with an out-of-bounds
error. -/
theorem C10_empty_orders_out_of_bounds (isDF : Bool) (dataLen : ℕ) :
    bt_init isDF dataLen [] [] = .error .IndexOutOfBounds ∧
    bt_init isDF dataLen [] [] ≠ .error .ShapeMismatch ∧
    bt_init isDF dataLen [] [] ≠ .error .TypeMismatch ∧
    bt_init isDF dataLen [] [] ≠ .ok () := by
  have h : bt_init isDF dataLen [] [] = .error .IndexOutOfBounds := by
    simp [bt_init, pyIsInt]
  refine ⟨h, ?_, ?_, ?_⟩ <;> simp [h]
